import Mathlib

/-!
Verification development for the test-frame image pipeline.

Each Go function relevant to the checked properties is embedded as an
executable Lean definition translated from the source:

* `tags/tags.go`: canonical tag sets (`tagsFix`, `tagsHasGo`, `tagsAdd`),
  tag rules (`MakeTagRule`, `TagRule.Give`).
* `tags/util.go` and the scanner's `loadTagFile`: sidecar parsing
  (`splitLinesAux`, `LoadTagFileTags`).
* `weighter/core.go`: weighted index construction (`mkProfileWeightLists`,
  `mkMaxRoll`), draw bucket selection (`findWeightList`,
  `getRandomProfile`), `wProfileGet`.
* `cmerge/core.go`: the poll back-off duration arithmetic
  (`mergeBackoffNs`) on wrapping 64-bit integers.
* `yconf/core.go`: configuration reload (`loadConfFileM`, `loadConfListM`,
  `reloadM`).
* scanner configuration check (`checkConfModel`), loop numbers
  (`nextLoop`, `checkBaseLoopStep`), DB update of one file
  (`updateDBFileM`), and the cache-file write sequences of the scanner and
  the cache manager (`setFileHashWriteSteps`, `cacheImageRawWriteSteps`)
  with a small file-system semantics (`fsRun`).

Machine integers are modelled as `Nat`/`Int`; where Go overflow matters
(the merger back-off) the wrap at 2^63 is explicit (`int64Wrap`).
-/

/-! ## Tag sets (tags/tags.go)

A tag set is a `List Nat` of interned tag IDs; `0` is the invalid tag.
-/

/-- Insertion step for ascending sort of tag IDs. -/
def insertSorted (x : Nat) : List Nat → List Nat
  | [] => [x]
  | y :: ys => if x ≤ y then x :: y :: ys else y :: insertSorted x ys

/-- Ascending sort of tag IDs; models `Tags.Sort` (sort.Sort with `<`). -/
def tagsSort : List Nat → List Nat
  | [] => []
  | x :: xs => insertSorted x (tagsSort xs)

/-- Removal of adjacent duplicates, as the de-duplication loop of
`Tags.Fix` does on the sorted list (keeping the first of each run). -/
def dedupAdj : List Nat → List Nat
  | [] => []
  | [a] => [a]
  | a :: b :: rest => if a = b then dedupAdj (b :: rest) else a :: dedupAdj (b :: rest)

/-- Embeds `Tags.Fix`: lists of length 0 or 1 are returned unchanged,
otherwise the list is sorted and adjacent duplicates are removed. -/
def tagsFix (t : List Nat) : List Nat :=
  if t.length ≤ 1 then t else dedupAdj (tagsSort t)

/-- Scan loop of `Tags.Has`: linear walk that stops early once the
current element exceeds the wanted tag (the list is assumed sorted). -/
def tagsHasLoop : List Nat → Nat → Bool
  | [], _ => false
  | x :: xs, w => if x = w then true else if x > w then false else tagsHasLoop xs w

/-- Embeds `Tags.Has`: tag `0` is invalid and never present. -/
def tagsHasGo (t : List Nat) (want : Nat) : Bool :=
  if want = 0 then false else tagsHasLoop t want

/-- Embeds `Tags.Add`: ignore tag `0`, keep the list unchanged when the
tag is present, otherwise append and re-sort (no Fix needed, the tag is
known not to be a duplicate). -/
def tagsAdd (t : List Nat) (toAdd : Nat) : List Nat :=
  if toAdd = 0 then t
  else if tagsHasGo t toAdd then t
  else tagsSort (t ++ [toAdd])

/-! ## Tag rules (tags/tags.go, tags/types.go) -/

/-- Flag constant `trfAny` (1 << 0). -/
def trfAny : Nat := 1

/-- Flag constant `trfAll` (1 << 1). -/
def trfAll : Nat := 2

/-- Flag constant `trfNone` (1 << 2). -/
def trfNone : Nat := 4

/-- Embeds `trTag`: a rule tag together with its predicate flag. -/
structure TrTag where
  tag : Nat
  flag : Nat
deriving DecidableEq, Repr

/-- Embeds `TagRule`: the tag to give, the sorted flagged tags, and the
three presence flags. -/
structure TagRule where
  Tag : Nat
  trTags : List TrTag
  hasAny : Bool
  hasAll : Bool
  hasNone : Bool
deriving DecidableEq, Repr

/-- Insertion step for sorting `TrTag`s by tag ID (`trTags.Sort`). -/
def insertTrTag (a : TrTag) : List TrTag → List TrTag
  | [] => [a]
  | b :: bs => if a.tag ≤ b.tag then a :: b :: bs else b :: insertTrTag a bs

/-- Sort of `TrTag`s by tag ID, models `trTags.Sort`. -/
def sortTrTags : List TrTag → List TrTag
  | [] => []
  | a :: as => insertTrTag a (sortTrTags as)

/-- Adjacent-duplicate test used by `MakeTagRule`'s validation loop. -/
def hasAdjDupTr : List TrTag → Bool
  | [] => false
  | [_] => false
  | a :: b :: rest => a.tag = b.tag || hasAdjDupTr (b :: rest)

/-- Embeds `MakeTagRule`: tags of the three predicate lists are flagged,
concatenated, sorted; an empty combined list or a duplicate tag is an
error; the `hasX` flags record which predicate lists were non-empty. -/
def MakeTagRule (give : Nat) (anyT allT noneT : List Nat) : Except String TagRule :=
  let trt := anyT.map (fun tn => TrTag.mk tn trfAny)
      ++ allT.map (fun tn => TrTag.mk tn trfAll)
      ++ noneT.map (fun tn => TrTag.mk tn trfNone)
  let trt := sortTrTags trt
  if trt.length = 0 then Except.error "No tags in TagRule"
  else if hasAdjDupTr trt then Except.error "Duplicate tag found in TagRule"
  else Except.ok
    { Tag := give
      trTags := trt
      hasAny := !anyT.isEmpty
      hasAll := !allT.isEmpty
      hasNone := !noneT.isEmpty }

/-- Outcome of the two-pointer loop in `TagRule.Give`: either an early
`return` with a boolean, or the loop ran off an end with the `hasAny`
accumulator. -/
inductive GiveRes where
  | ret (b : Bool)
  | done (sawAny : Bool)
deriving DecidableEq, Repr

/-- The two-pointer loop of `TagRule.Give`.  The fuel argument only bounds
the number of iterations; `trt.length + t.length` steps always suffice
because every iteration advances at least one of the two positions. -/
def giveLoopF (onlyAny : Bool) : Nat → List TrTag → List Nat → Bool → GiveRes
  | _, [], _, sawA => GiveRes.done sawA
  | _, _ :: _, [], sawA => GiveRes.done sawA
  | 0, _ :: _, _ :: _, sawA => GiveRes.done sawA
  | fuel + 1, tr :: trs, x :: xs, sawA =>
    if tr.tag > x then giveLoopF onlyAny fuel (tr :: trs) xs sawA
    else if x > tr.tag then
      -- Skipping a rule tag: a skipped trfAll tag can not match.
      if tr.flag = trfAll then GiveRes.ret false
      else giveLoopF onlyAny fuel trs (x :: xs) sawA
    else
      -- Both sides equal: dispatch on the flag.
      if tr.flag = trfAny then
        if onlyAny then GiveRes.ret true
        else giveLoopF onlyAny fuel trs xs true
      else if tr.flag = trfNone then GiveRes.ret false
      else giveLoopF onlyAny fuel trs xs sawA

/-- Embeds `TagRule.Give`: empty rules never fire; an empty input set
fires exactly the rules with neither Any nor All tags but with None tags;
otherwise the two-pointer loop runs, and on normal loop exit the rule
fires when an Any tag matched or when the rule has All tags. -/
def TagRule.Give (tr : TagRule) (t : List Nat) : Bool :=
  if tr.trTags.length < 1 then false
  else if t.length < 1 then
    if tr.hasAny || tr.hasAll then false
    else if tr.hasNone then true
    else false
  else
    let onlyAny := tr.hasAny && !tr.hasAll && !tr.hasNone
    match giveLoopF onlyAny (tr.trTags.length + t.length) tr.trTags t false with
    | GiveRes.ret b => b
    | GiveRes.done sawA =>
      if tr.hasAny && sawA then true
      else if tr.hasAll then true
      else false

/-- Rule with only `All = [2, 5]` as `MakeTagRule` builds it. -/
def ruleAll25 : TagRule :=
  ⟨99, [⟨2, trfAll⟩, ⟨5, trfAll⟩], false, true, false⟩

/-- Rule with only `None = [5]` as `MakeTagRule` builds it. -/
def ruleNone5 : TagRule :=
  ⟨77, [⟨5, trfNone⟩], false, false, true⟩

/-! ## Sidecar tag files (tags/util.go `LoadTagFile`, scanner `loadTagFile`)

File content is a `List Char`.  `bufio.ReadString('\n')` yields the
newline-terminated segments one by one and, at end of file, returns the
remaining bytes together with `io.EOF`; both readers `break` on `io.EOF`
without processing that final segment, so only complete lines are seen.
-/

/-- Splits content into its newline-terminated lines (delimiters dropped;
`TrimSpace` would remove them anyway) plus the unterminated remainder. -/
def splitLinesAux : List Char → List Char → List (List Char) × List Char
  | cur, [] => ([], cur.reverse)
  | cur, c :: cs =>
    if c = '\n' then
      let r := splitLinesAux [] cs
      (cur.reverse :: r.1, r.2)
    else splitLinesAux (c :: cur) cs

/-- The newline-terminated lines of the content, in order. -/
def completeLines (content : List Char) : List (List Char) :=
  (splitLinesAux [] content).1

/-- Whitespace test matching the ASCII cases of `strings.TrimSpace`
(tab, LF, VT, FF, CR, space). -/
def isSpaceCh (c : Char) : Bool :=
  c.toNat = 9 || c.toNat = 10 || c.toNat = 11 || c.toNat = 12 || c.toNat = 13 || c.toNat = 32

/-- Embeds `strings.TrimSpace` on a character list. -/
def trimSpace (l : List Char) : List Char :=
  ((l.dropWhile isSpaceCh).reverse.dropWhile isSpaceCh).reverse

/-- Body of the sidecar read loop for one complete line: trim, discard
empty and over-100-byte lines, resolve through the tag interner `tm`,
discard tag `0`, otherwise `Tags.Add`. -/
def sidecarLineTag (tm : List Char → Nat) (acc : List Nat) (raw : List Char) : List Nat :=
  let line := trimSpace raw
  if line.isEmpty || line.length > 100 then acc
  else
    let tag := tm line
    if tag = 0 then acc else tagsAdd acc tag

/-- Embeds the shared reader logic of `LoadTagFile` and the scanner's
`loadTagFile`: fold the loop body over the newline-terminated lines, then
`Fix` the result.  The interner is the function `tm`. -/
def LoadTagFileTags (tm : List Char → Nat) (content : List Char) : List Nat :=
  tagsFix ((completeLines content).foldl (sidecarLineTag tm) [])

/-- Interner stub used by concrete witnesses: a non-empty line gets its
length as tag ID. -/
def tmLen (l : List Char) : Nat := l.length

/-! ## Weighter index and draws (weighter/core.go) -/

/-- Embeds `weightList`: one bucket of the per-profile weighted index. -/
structure WeightList where
  Weight : Int
  Start : Int
  IDs : List Nat
deriving DecidableEq, Repr

/-- Bucket-list construction loop of `makeProfileWeights` for one
profile: the weight map is supplied as the list of its (weight, IDs)
entries in iteration order; `start` accumulates the cumulative start. -/
def mkProfileWeightLists (start : Int) : List (Int × List Nat) → List WeightList
  | [] => []
  | (w, ids) :: rest => ⟨w, start, ids⟩ :: mkProfileWeightLists (start + w) rest

/-- The `maxRoll` computed by the same loop: the final cumulative start
(0 when the weight map is empty). -/
def mkMaxRoll (start : Int) : List (Int × List Nat) → Int
  | [] => start
  | (w, _) :: rest => mkMaxRoll (start + w) rest

/-- Bucket-selection loop of `getRandomProfile`: skip a bucket while
`Weight + Start < roll`, select the first remaining bucket. -/
def findWeightList (roll : Int) : List WeightList → Option WeightList
  | [] => none
  | wl :: rest => if wl.Weight + wl.Start < roll then findWeightList roll rest else some wl

/-- Embeds `cacheProfile`: the per-profile index handed to draws. -/
structure CacheProfile where
  profile : String
  weights : List WeightList
  maxRoll : Int
deriving DecidableEq, Repr

/-- Embeds `Weighter.getRandomProfile` with the RNG modelled as a stream
`rng`: draw `i` uses `rng (2*i) mod maxRoll` as the roll (`r.Intn`) and
`rng (2*i+1) mod len(IDs)` to pick within the bucket; when no bucket is
selected the slot keeps its zero value, as the Go `make` slice does. -/
def getRandomProfile (cp : CacheProfile) (num : Nat) (rng : Nat → Nat) : List Nat :=
  (List.range num).map fun i =>
    let roll : Int := Int.ofNat (rng (2 * i) % cp.maxRoll.toNat)
    match findWeightList roll cp.weights with
    | none => 0
    | some wl => wl.IDs.getD (rng (2 * i + 1) % wl.IDs.length) 0

/-- Embeds `wProfile.Get` (after a successful `loadCP`): cap the request
at 100, error out on an empty index (`maxRoll = 0`), otherwise draw. -/
def wProfileGet (cp : CacheProfile) (num : Nat) (rng : Nat → Nat) : Except String (List Nat) :=
  let capped := if num > 100 then 100 else num
  if cp.maxRoll = 0 then Except.error "no images for tagprofile"
  else Except.ok (getRandomProfile cp capped rng)

/-! ## Merger poll back-off (cmerge/core.go `loopy`)

Go durations are 64-bit signed nanosecond counts with wrapping
multiplication.  The error branch executes
`nextPoll.Reset(pollInt * time.Duration(time.Second*time.Duration(errors)))`.
-/

/-- The constant 2^63. -/
def twoPow63 : Int := 9223372036854775808

/-- Two's-complement wrap of an integer into the int64 range. -/
def int64Wrap (x : Int) : Int :=
  (x + twoPow63) % (2 * twoPow63) - twoPow63

/-- Nanoseconds in `time.Second`. -/
def goSecondNs : Int := 1000000000

/-- The duration (in nanoseconds) passed to `nextPoll.Reset` in the error
branch of `CMerge.loopy`: `pollInt * (time.Second * errors)` with int64
wrapping, where `pollInt` is itself a nanosecond count. -/
def mergeBackoffNs (pollIntNs : Int) (errCount : Int) : Int :=
  int64Wrap (pollIntNs * int64Wrap (goSecondNs * errCount))

/-- The success branch of the same loop: with a positive error count the
ticker is reset to `pollInt` and the count cleared. -/
def mergePollSuccessReset (pollIntNs : Int) (errCount : Int) : Int × Int :=
  if errCount > 0 then (pollIntNs, 0) else (pollIntNs, errCount)

/-! ## Configuration watcher (yconf/core.go)

The user hooks are modelled over a configuration type `α`; `Convert`,
`Merge` and `Changed` may be absent, as the nil checks in the source
allow.  A configuration file is represented by its decode outcome
(`yaml.Decode` can fail).  The committed state is `Option α`, the value
`Get` returns (`none` before the first successful load).
-/

/-- The optional user hooks of `yconf.Callers` that `reload` consults. -/
structure CallersM (α : Type) where
  convert : Option (α → Except String α)
  merge : Option (α → α → Except String α)
  changed : Option (Option α → Option α → Bool)

/-- Embeds `YConf.loadConfFile` for one file: propagate the decode error,
apply `Convert` when present, then either keep the first value, `Merge`
into the accumulator, or replace it when no merge hook exists. -/
def loadConfFileM {α : Type} (ca : CallersM α) (acc : Option α) (file : Except String α) :
    Except String α :=
  match file with
  | Except.error e => Except.error e
  | Except.ok ei =>
    let conv : Except String α :=
      match ca.convert with
      | none => Except.ok ei
      | some cv => cv ei
    match conv with
    | Except.error e => Except.error e
    | Except.ok ei2 =>
      match acc with
      | none => Except.ok ei2
      | some prev =>
        match ca.merge with
        | none => Except.ok ei2
        | some mg => mg prev ei2

/-- The file loop of `YConf.loadConf` over the sorted document list: the
first failing file aborts the whole load with its error. -/
def loadConfListM {α : Type} (ca : CallersM α) : Option α → List (Except String α) →
    Except String (Option α)
  | acc, [] => Except.ok acc
  | acc, f :: fs =>
    match loadConfFileM ca acc f with
    | Except.error e => Except.error e
    | Except.ok c => loadConfListM ca (some c) fs

/-- Embeds `YConf.reload`: build a fresh loaded value from scratch; on
any error keep the committed value and report the error; otherwise commit
unless `isLoadedEqual` (negated `Changed`, absent hook means changed)
says nothing changed. Returns the new committed value and the reported
error. -/
def reloadM {α : Type} (ca : CallersM α) (committed : Option α)
    (files : List (Except String α)) : Option α × Option String :=
  match loadConfListM ca none files with
  | Except.error e => (committed, some e)
  | Except.ok newConf =>
    let isEq :=
      match ca.changed with
      | none => false
      | some ch => !ch committed newConf
    if isEq then (committed, none) else (newConf, none)

/-- Concrete `Convert` hook for witnesses: the document `7` fails. -/
def convSeven (n : Nat) : Except String Nat :=
  if n = 7 then Except.error "bad" else Except.ok n

/-- Concrete hook record for witnesses. -/
def caSeven : CallersM Nat := ⟨some convSeven, none, none⟩

/-! ## Scanner configuration check (imgproc `checkConf`) -/

/-- Embeds `image.Point` with Go int coordinates. -/
structure GoPoint where
  x : Int
  y : Int
deriving DecidableEq, Repr

/-- Embeds `confQueries` of the scanner. -/
structure ScanQueries where
  FilesSelect : String
  FilesInsert : String
  FilesUpdate : String
  FilesDisable : String
  PathsSelect : String
  PathsInsert : String
  PathsUpdate : String
  PathsDisable : String
deriving DecidableEq, Repr

/-- The fields of `confBase` that `checkConf` validates; `CheckInt` is a
nanosecond duration. -/
structure ConfBase where
  Path : String
  TagFile : String
  CheckInt : Int
deriving DecidableEq, Repr

/-- Embeds the scanner `conf`; the base map is its (ID, base) entries. -/
structure ScanConf where
  MaxResolution : GoPoint
  Bases : List (Nat × ConfBase)
  Queries : Option ScanQueries
  Database : String
deriving DecidableEq, Repr

/-- The per-base validation of `checkConf`: ID 0, empty path, empty tag
file and a check interval under 10 seconds are all rejected. -/
def baseOk (b : Nat × ConfBase) : Bool :=
  !(b.1 = 0) && !(b.2.Path = "") && !(b.2.TagFile = "") && !(b.2.CheckInt < 10000000000)

/-- The query validation of `checkConf`: queries must be present and all
eight statements non-empty. -/
def queriesOk : Option ScanQueries → Bool
  | none => false
  | some q =>
    !(q.PathsSelect = "") && !(q.PathsInsert = "") && !(q.PathsUpdate = "")
      && !(q.PathsDisable = "") && !(q.FilesSelect = "") && !(q.FilesInsert = "")
      && !(q.FilesUpdate = "") && !(q.FilesDisable = "")

/-- The early-return chain of `checkConf`'s validation phase, folded into
one conjunction: at least one base, every base valid, queries valid.
`MaxResolution` is not consulted anywhere in it. -/
def scanConfValid (co : ScanConf) : Bool :=
  !(co.Bases.length < 1) && co.Bases.all baseOk && queriesOk co.Queries

/-- The `MaxResolution` adjustment of `checkConf`: each axis below 720 is
replaced by the 3840 default; nothing is rejected here. -/
def defaultMaxRes (p : GoPoint) : GoPoint :=
  ⟨if p.x < 720 then 3840 else p.x, if p.y < 720 then 3840 else p.y⟩

/-- Embeds `ImageProc.checkConf` on its first-load path (no previously
committed configuration, so the change-bit and connectivity section at
the end is skipped): run the validation chain, then apply the
`MaxResolution` defaulting to the accepted configuration. -/
def checkConfModel (co : ScanConf) : Bool × ScanConf :=
  if scanConfValid co then
    (true, ⟨defaultMaxRes co.MaxResolution, co.Bases, co.Queries, co.Database⟩)
  else (false, co)

/-- Embeds the commit decision of the scanner's `notifyConf`: an invalid
proposal keeps the old configuration, a valid one stores the (adjusted)
proposal. -/
def notifyConfCommit (oldco : ScanConf) (co : ScanConf) : ScanConf :=
  if (checkConfModel co).1 then (checkConfModel co).2 else oldco

/-- A proposed configuration that is valid in every respect except that
both `MaxResolution` axes are below the 720 floor. -/
def confLow : ScanConf :=
  ⟨⟨100, 100⟩, [(1, ⟨"/pics", "tags.txt", 10000000000⟩)],
    some ⟨"q1", "q2", "q3", "q4", "q5", "q6", "q7", "q8"⟩, "postgres:"⟩

/-- A previously committed configuration distinct from the adjusted form
of `confLow`. -/
def confOld : ScanConf :=
  ⟨⟨800, 600⟩, [(1, ⟨"/old", "tags.txt", 10000000000⟩)],
    some ⟨"q1", "q2", "q3", "q4", "q5", "q6", "q7", "q8"⟩, "postgres:"⟩

/-! ## Loop numbers (imgproc `nextLoop`, `checkBase`) -/

/-- Embeds `nextLoop`: values below 10 or above 5*10^7 restart at 10,
anything else increments.  The uint32 arithmetic can not wrap because the
increment only happens at or below 5*10^7. -/
def nextLoop (old : Nat) : Nat :=
  if old < 10 || old > 50000000 then 10 else old + 1

/-- The advisory-lock gate and loop bump at the top of
`ImageProc.checkBase`: a pass that loses the compare-and-swap returns
with the loop number untouched, an acquiring pass applies `nextLoop`
exactly once.  Returns whether the pass ran and the new loop number. -/
def checkBaseLoopStep (checkRunning : Bool) (loop : Nat) : Bool × Nat :=
  if checkRunning then (false, loop) else (true, nextLoop loop)

/-! ## Scanner database update of one file (imgproc `updateDBFile`) -/

/-- Update bits of `fileCache.updated` (iota order of the source). -/
def upFileTS : Nat := 1

/-- The file calculated tags changed. -/
def upFileCT : Nat := 2

/-- The file hash changed. -/
def upFileHS : Nat := 4

/-- The sidecar modified time changed. -/
def upSideTS : Nat := 8

/-- The sidecar tags changed. -/
def upSideTG : Nat := 16

/-- The fields of `fileCache` that `updateDBFile` reads and writes.
Timestamps are millisecond counts. -/
structure FileCacheS where
  Name : String
  FileTS : Nat
  SideTS : Nat
  SideTG : List Nat
  CTags : List Nat
  Hash : String
  fileError : Bool
  updated : Nat
  loopF : Nat
  loopS : Nat
  disabled : Bool
  id : Nat
deriving DecidableEq, Repr

/-- The SQL statements `updateDBFile` can execute inside the open
transaction. -/
inductive DBStmt where
  | filesDisable (fid : Nat)
  | filesInsert (pid : Nat) (name : String) (filets : Nat) (hash : String)
      (sidets : Nat) (sidetags : List Nat) (ctags : List Nat)
  | filesUpdate (fid : Nat) (filets : Nat) (hash : String) (sidets : Nat)
      (sidetags : List Nat) (ctags : List Nat)
deriving DecidableEq, Repr

/-- Embeds `ImageProc.updateDBFile` as a pure transition: given the
current loop number, the ID the insert statement would return, and the
file cache entry, it yields the statements issued, the entry afterwards,
and the error reported.  The early return for an empty combined tag set
precedes every other branch. -/
def updateDBFileM (loop : Nat) (pid : Nat) (newId : Nat) (fc : FileCacheS) :
    List DBStmt × FileCacheS × Option String :=
  if fc.CTags.length = 0 then ([], fc, none)
  else if fc.loopF ≠ loop then
    if fc.id = 0 then
      if fc.loopS = loop then
        ([], ⟨fc.Name, fc.FileTS, fc.SideTS, fc.SideTG, fc.CTags, fc.Hash, fc.fileError,
          fc.updated, fc.loopF, fc.loopS, true, fc.id⟩, none)
      else
        ([], ⟨fc.Name, fc.FileTS, fc.SideTS, fc.SideTG, fc.CTags, fc.Hash, fc.fileError,
          fc.updated, fc.loopF, fc.loopS, true, fc.id⟩, some "no loop, no id")
    else if fc.disabled then ([], fc, some "already disabled unseen file")
    else
      ([DBStmt.filesDisable fc.id],
        ⟨fc.Name, fc.FileTS, fc.SideTS, fc.SideTG, fc.CTags, fc.Hash, fc.fileError,
          fc.updated, fc.loopF, fc.loopS, true, fc.id⟩, none)
  else if fc.fileError then ([], fc, none)
  else if fc.id = 0 then
    ([DBStmt.filesInsert pid fc.Name fc.FileTS fc.Hash fc.SideTS fc.SideTG fc.CTags],
      ⟨fc.Name, fc.FileTS, fc.SideTS, fc.SideTG, fc.CTags, fc.Hash, fc.fileError,
        fc.updated, fc.loopF, fc.loopS, fc.disabled, newId⟩, none)
  else if fc.updated &&& (upFileTS ||| upFileCT ||| upFileHS ||| upSideTS ||| upSideTG) ≠ 0 then
    ([DBStmt.filesUpdate fc.id fc.FileTS fc.Hash fc.SideTS fc.SideTG fc.CTags], fc, none)
  else ([], fc, none)

/-- A file cache entry with an empty combined tag set but every other
field pushing toward a write: seen this loop, no error, no ID, and all
update bits set. -/
def fcNoTags : FileCacheS :=
  ⟨"x.jpg", 5, 6, [3], [], "abcd", false, 31, 42, 42, false, 0⟩

/-! ## Cache file writes (imgproc `setFileHash`, cmanager `CacheImageRaw`)

The write sequence each function performs once it has decided the cache
file is absent is modelled as a list of file-system steps, with a small
semantics tracking which names are visible and whether their content is
completely written.
-/

/-- One file-system step of a cache write. -/
inductive FsStep where
  | create (name : String)
  | writeImg (name : String) (ok : Bool)
  | closeFile (name : String)
  | renameFile (src : String) (dst : String)
deriving DecidableEq, Repr

/-- The visible files: names paired with whether their content is
completely written. -/
def FsState := List (String × Bool)

/-- Lookup of a visible name. -/
def fsLookup (n : String) : FsState → Option Bool
  | [] => none
  | (m, b) :: rest => if m = n then some b else fsLookup n rest

/-- Removal of a name. -/
def fsErase (n : String) : FsState → FsState
  | [] => []
  | (m, b) :: rest => if m = n then fsErase n rest else (m, b) :: fsErase n rest

/-- Insertion or replacement of a name. -/
def fsSet (n : String) (b : Bool) (s : FsState) : FsState :=
  (n, b) :: fsErase n s

/-- Effect of one step: `create` makes the name visible with incomplete
content, a successful `writeImg` completes it (a failed one leaves it
partial), `closeFile` changes nothing, and `renameFile` atomically moves
the entry. -/
def fsApply (s : FsState) : FsStep → FsState
  | FsStep.create n => fsSet n false s
  | FsStep.writeImg n ok => if ok then fsSet n true s else s
  | FsStep.closeFile _ => s
  | FsStep.renameFile src dst =>
    match fsLookup src s with
    | some b => fsSet dst b (fsErase src s)
    | none => s

/-- Run of a step list from a state. -/
def fsRun (steps : List FsStep) (s : FsState) : FsState :=
  steps.foldl fsApply s

/-- The one-character string `string(hash[0])` (hashes are ASCII hex, so
bytes and characters coincide). -/
def strFirst (s : String) : String := String.mk (s.data.take 1)

/-- The one-character string `string(hash[1])`. -/
def strSecond (s : String) : String := String.mk ((s.data.drop 1).take 1)

/-- The cache file name `setFileHash` computes:
`cachePath/<h[0]>/<h[1]>/<hash>.png`. -/
def setFileHashCacheName (cachePath hash : String) : String :=
  cachePath ++ "/" ++ strFirst hash ++ "/" ++ strSecond hash ++ "/" ++ hash ++ ".png"

/-- Step classifier: is the step a rename? -/
def isRenameStep : FsStep → Bool
  | FsStep.renameFile _ _ => true
  | _ => false

/-- Whether a step operates on the given name. -/
def stepUsesName (n : String) : FsStep → Bool
  | FsStep.create m => m = n
  | FsStep.writeImg m _ => m = n
  | FsStep.closeFile m => m = n
  | FsStep.renameFile a b => a = n || b = n

/-- The write sequence of `ImageProc.setFileHash` once the cache file is
absent and the image decoded: `os.Create` directly on the final name,
encode into it (`encodeOk` records whether the encode succeeded; on
failure the function closes and returns, leaving the file in place), and
close. -/
def setFileHashWriteSteps (fName : String) (encodeOk : Bool) : List FsStep :=
  [FsStep.create fName, FsStep.writeImg fName encodeOk, FsStep.closeFile fName]

/-- The write sequence of `CManager.CacheImageRaw` once the cache file is
absent: `os.Create` on `<file>.tmp`, encode, close, and only on a
successful encode `os.Rename` onto the final name. -/
def cacheImageRawWriteSteps (file : String) (encodeOk : Bool) : List FsStep :=
  if encodeOk then
    [FsStep.create (file ++ ".tmp"), FsStep.writeImg (file ++ ".tmp") true,
      FsStep.closeFile (file ++ ".tmp"), FsStep.renameFile (file ++ ".tmp") file]
  else
    [FsStep.create (file ++ ".tmp"), FsStep.writeImg (file ++ ".tmp") false,
      FsStep.closeFile (file ++ ".tmp")]

/-! ## Supporting lemmas -/

/-- A name with the `.tmp` suffix differs from the bare name. -/
theorem append_tmp_ne (f : String) : f ++ ".tmp" ≠ f := by
  intro h
  have hl := congrArg String.length h
  rw [String.length_append] at hl
  have h4 : (".tmp" : String).length = 4 := rfl
  rw [h4] at hl
  omega

/-- The final start value of the bucket loop is the initial start plus
the sum of the bucket weights. -/
theorem mkMaxRoll_eq_add_sum (wm : List (Int × List Nat)) :
    ∀ s, mkMaxRoll s wm = s + (wm.map Prod.fst).sum := by
  induction wm with
  | nil => intro s; simp [mkMaxRoll]
  | cons p rest ih =>
    intro s
    cases p with
    | mk w ids =>
      simp only [mkMaxRoll, List.map_cons, List.sum_cons]
      rw [ih (s + w)]
      ring

/-- Newline-free content yields no complete line, whatever is pending. -/
theorem splitLinesAux_no_newline (s : List Char) (h : ∀ ch ∈ s, ch ≠ '\n') :
    ∀ cur, (splitLinesAux cur s).1 = [] := by
  induction s with
  | nil => intro cur; rfl
  | cons a as ih =>
    intro cur
    have ha : ¬(a = '\n') := h a (List.mem_cons_self a as)
    simp only [splitLinesAux, if_neg ha]
    exact ih (fun ch hch => h ch (List.mem_cons_of_mem a hch)) _

/-- Appending newline-free bytes never changes the complete lines. -/
theorem splitLinesAux_append (c s : List Char) (h : ∀ ch ∈ s, ch ≠ '\n') :
    ∀ cur, (splitLinesAux cur (c ++ s)).1 = (splitLinesAux cur c).1 := by
  induction c with
  | nil =>
    intro cur
    simp only [List.nil_append, splitLinesAux]
    exact splitLinesAux_no_newline s h cur
  | cons a as ih =>
    intro cur
    by_cases ha : a = '\n'
    · subst ha
      simp only [List.cons_append, splitLinesAux, if_pos rfl]
      exact congrArg (List.cons cur.reverse) (ih [])
    · simp only [List.cons_append, splitLinesAux, if_neg ha]
      exact ih _

deriving instance DecidableEq for Except

/-! ## Claim theorems -/

/-- Claim C1 (refuted; the code diverges from the stated rule
semantics).  Evaluation of `TagRule.Give` at two concrete rules built by
`MakeTagRule`: the rule with only `All = [2, 5]` fires on the canonical
set `[2]` although `[2, 5]` is not a subset of `[2]` (the trailing All
tag 5 is never compared once the input set is exhausted), and the rule
with only `None = [5]` does not fire on `[1]` although `[5]` is disjoint
from `[1]` (after the loop only `hasAny`/`hasAll` rules can return
true). -/
theorem c1_give_diverges_from_claim :
    MakeTagRule 99 [] [2, 5] [] = Except.ok ruleAll25 ∧
    ruleAll25.Give [2] = true ∧
    ¬(∀ a ∈ ([2, 5] : List Nat), a ∈ ([2] : List Nat)) ∧
    MakeTagRule 77 [] [] [5] = Except.ok ruleNone5 ∧
    ruleNone5.Give [1] = false ∧
    (∀ a ∈ ([5] : List Nat), ¬a ∈ ([1] : List Nat)) := by
  decide

/-- The two-bucket index of the C2 divergence: weight map entries
(3, [11]) and (1, [22]) in iteration order. -/
def bucketsTwo : List WeightList := mkProfileWeightLists 0 [(3, [11]), (1, [22])]

/-- The profile built from those buckets. -/
def cpTwo : CacheProfile := ⟨"p", bucketsTwo, mkMaxRoll 0 [(3, [11]), (1, [22])]⟩

/-- RNG stream whose first draw rolls 3. -/
def rngThree : Nat → Nat := fun k => if k = 0 then 3 else 0

/-- Claim C2 (first part holds, bucket selection refuted).  `maxRoll` is
the sum of the bucket weights for every weight map; but the selection
loop keeps a bucket already when `Start + Weight` is not *strictly*
below the roll, so the boundary roll 3 — which the half-open interval
`[3, 4)` of the weight-1 bucket contains — still selects the weight-3
bucket `[0, 3)`, and the draw returns its image 11 instead of 22. -/
theorem c2_bucket_selection_diverges :
    (∀ wm : List (Int × List Nat), mkMaxRoll 0 wm = (wm.map Prod.fst).sum) ∧
    bucketsTwo = [⟨3, 0, [11]⟩, ⟨1, 3, [22]⟩] ∧
    cpTwo.maxRoll = 4 ∧
    findWeightList 3 bucketsTwo = some ⟨3, 0, [11]⟩ ∧
    ¬((0 : Int) ≤ 3 ∧ (3 : Int) < 0 + 3) ∧
    ((3 : Int) ≤ 3 ∧ (3 : Int) < 3 + 1) ∧
    getRandomProfile cpTwo 1 rngThree = [11] := by
  refine ⟨fun wm => by simpa using mkMaxRoll_eq_add_sum wm 0, ?_, ?_, ?_, ?_, ?_, ?_⟩ <;> decide

/-- Claim C3 counterexample: the Scanner's cache write uses no `.tmp`
name and no rename at all — it creates the final name
`cache/a/b/ab12.png` directly — and after a failed encode that final
name is visible with incomplete content, so a visible filename does not
always hold a valid image. -/
theorem c3_counterexample :
    setFileHashCacheName "cache" "ab12" = "cache/a/b/ab12.png" ∧
    (setFileHashWriteSteps (setFileHashCacheName "cache" "ab12") false).all
      (fun s => !isRenameStep s) = true ∧
    (setFileHashWriteSteps (setFileHashCacheName "cache" "ab12") false).all
      (fun s => !stepUsesName (setFileHashCacheName "cache" "ab12" ++ ".tmp") s) = true ∧
    (setFileHashWriteSteps (setFileHashCacheName "cache" "ab12") true).all
      (fun s => !isRenameStep s) = true ∧
    fsLookup (setFileHashCacheName "cache" "ab12")
      (fsRun (setFileHashWriteSteps (setFileHashCacheName "cache" "ab12") false) []) =
      some false := by
  decide

/-- Claim C3 amended: the atomic `.tmp`-write-then-rename pattern is the
cache manager's: after `CacheImageRaw`'s write sequence the final name
is visible exactly when the encode succeeded, and then with complete
content; the Scanner's `setFileHash` instead writes directly to the
final name with no rename. -/
theorem c3_amended (file : String) (encodeOk : Bool) :
    fsLookup file (fsRun (cacheImageRawWriteSteps file encodeOk) []) =
      (if encodeOk then some true else none) ∧
    (setFileHashWriteSteps file encodeOk).all (fun s => !isRenameStep s) = true ∧
    setFileHashWriteSteps file encodeOk =
      [FsStep.create file, FsStep.writeImg file encodeOk, FsStep.closeFile file] := by
  have htmp : ¬(file ++ ".tmp" = file) := append_tmp_ne file
  cases encodeOk with
  | false =>
    refine ⟨?_, rfl, rfl⟩
    simp [cacheImageRawWriteSteps, fsRun, fsApply, fsSet, fsErase, fsLookup, htmp]
  | true =>
    refine ⟨?_, rfl, rfl⟩
    simp [cacheImageRawWriteSteps, fsRun, fsApply, fsSet, fsErase, fsLookup]

/-- Claim C4 counterexample: the successor of the boundary value 5*10^7
is 50000001, outside the claimed range. -/
theorem c4_counterexample :
    nextLoop 50000000 = 50000001 ∧ ¬(nextLoop 50000000 ≤ 50000000) := by
  decide

/-- Claim C4 amended: for every prior value the successor lies in
[10, 5*10^7 + 1] — the wrap to 10 happens on the pass *after* the value
exceeds 5*10^7 — and a scan pass that acquires the advisory flag bumps
the loop number exactly once via `nextLoop` while a losing pass leaves
it untouched. -/
theorem c4_amended (old : Nat) :
    10 ≤ nextLoop old ∧ nextLoop old ≤ 50000001 ∧
    checkBaseLoopStep false old = (true, nextLoop old) ∧
    checkBaseLoopStep true old = (false, old) := by
  have hb : 10 ≤ nextLoop old ∧ nextLoop old ≤ 50000001 := by
    rcases Nat.lt_or_ge old 10 with h1 | h1
    · have hv : nextLoop old = 10 := by unfold nextLoop; simp [h1]
      omega
    rcases Nat.lt_or_ge 50000000 old with h2 | h2
    · have hv : nextLoop old = 10 := by unfold nextLoop; simp [h2]
      omega
    · have hv : nextLoop old = old + 1 := by
        unfold nextLoop
        rw [if_neg]
        simp only [Bool.or_eq_true, decide_eq_true_eq, not_or]
        omega
      omega
  exact ⟨hb.1, hb.2, rfl, rfl⟩

/-- Claim C5 (refuted; the units are wrong in the code).  With a 5 s
poll interval (5*10^9 ns) and one consecutive error, the duration handed
to `Reset` is `pollInt * (time.Second * errorCount)` = 5*10^18 ns (about
158 years), not the claimed pollInterval * errorCount = 5 s; with two
errors the int64 multiplication overflows to a negative duration (which
makes `Ticker.Reset` panic).  The success branch does reset to
`pollInt` and clear the count. -/
theorem c5_backoff_diverges :
    mergeBackoffNs 5000000000 1 = 5000000000000000000 ∧
    ¬(mergeBackoffNs 5000000000 1 = 5000000000 * 1) ∧
    mergeBackoffNs 5000000000 2 < 0 ∧
    mergePollSuccessReset 5000000000 3 = (5000000000, 0) := by
  refine ⟨?_, ?_, ?_, ?_⟩ <;> decide

/-- Claim C6 counterexample: a configuration valid in every other
respect but with `maxresolution` 100x100 — below the 720 floor on both
axes — is *not* rejected: `checkConf` reports it valid after replacing
the resolution with the 3840x3840 default, and the commit step replaces
the previously committed configuration. -/
theorem c6_counterexample :
    (checkConfModel confLow).1 = true ∧
    confLow.MaxResolution.x < 720 ∧ confLow.MaxResolution.y < 720 ∧
    (checkConfModel confLow).2.MaxResolution = ⟨3840, 3840⟩ ∧
    ¬(notifyConfCommit confOld confLow = confOld) := by
  decide

/-- Claim C6 amended: a `maxresolution` below the 720 floor never causes
rejection — the validity verdict ignores `MaxResolution` entirely — and
an accepted configuration is committed with each sub-720 axis replaced
by 3840, so the committed resolution is always at least 720 on both
axes. -/
theorem c6_amended (co : ScanConf) (p : GoPoint)
    (h : (checkConfModel co).1 = true) :
    (checkConfModel ⟨p, co.Bases, co.Queries, co.Database⟩).1 = true ∧
    (checkConfModel co).2.MaxResolution = defaultMaxRes co.MaxResolution ∧
    720 ≤ (checkConfModel co).2.MaxResolution.x ∧
    720 ≤ (checkConfModel co).2.MaxResolution.y ∧
    notifyConfCommit confOld co = (checkConfModel co).2 := by
  have hv : scanConfValid co = true := by
    by_cases hs : scanConfValid co = true
    · exact hs
    · rw [checkConfModel, if_neg hs] at h
      exact absurd h (by simp)
  have hvp : scanConfValid ⟨p, co.Bases, co.Queries, co.Database⟩ = scanConfValid co := rfl
  refine ⟨?_, ?_, ?_, ?_, ?_⟩
  · rw [checkConfModel, hvp, if_pos hv]
  · rw [checkConfModel, if_pos hv]
  · rw [checkConfModel, if_pos hv]
    show 720 ≤ (defaultMaxRes co.MaxResolution).x
    have hx : (defaultMaxRes co.MaxResolution).x =
        if co.MaxResolution.x < 720 then 3840 else co.MaxResolution.x := rfl
    rw [hx]
    split <;> omega
  · rw [checkConfModel, if_pos hv]
    show 720 ≤ (defaultMaxRes co.MaxResolution).y
    have hy : (defaultMaxRes co.MaxResolution).y =
        if co.MaxResolution.y < 720 then 3840 else co.MaxResolution.y := rfl
    rw [hy]
    split <;> omega
  · rw [notifyConfCommit, if_pos h]

/-- Witness for the C6 amended theorem at the concrete sub-720
configuration. -/
theorem c6_amended_witness :
    (checkConfModel confLow).1 = true ∧
    720 ≤ (checkConfModel confLow).2.MaxResolution.x := by
  have h : (checkConfModel confLow).1 = true := by decide
  exact ⟨h, (c6_amended confLow ⟨4000, 4000⟩ h).2.2.1⟩

/-- Claim C7: confirmed.  When any configuration file fails to load,
convert or merge, `reload` reports that error and the committed value —
what `Get` returns — is exactly the previous one; and the committed
value changes only when every file processed without error. -/
theorem c7_reload_keeps_committed_on_error {α : Type} (ca : CallersM α) (st : Option α)
    (files : List (Except String α)) :
    (∀ e, loadConfListM ca none files = Except.error e →
      reloadM ca st files = (st, some e)) ∧
    ((reloadM ca st files).1 ≠ st →
      ∃ nc, loadConfListM ca none files = Except.ok nc ∧
        reloadM ca st files = (nc, none)) := by
  constructor
  · intro e he
    unfold reloadM
    rw [he]
  · intro hne
    cases hl : loadConfListM ca none files with
    | error e =>
      exfalso
      apply hne
      unfold reloadM
      rw [hl]
    | ok nc =>
      refine ⟨nc, rfl, ?_⟩
      unfold reloadM
      rw [hl]
      cases hch : ca.changed with
      | none => simp
      | some ch =>
        cases hb : ch st nc with
        | true => simp [hb]
        | false =>
          exfalso
          apply hne
          unfold reloadM
          rw [hl]
          simp [hch, hb]

/-- Witness for C7: a convert failure on the single document leaves the
committed value `some 3` in place and reports the error. -/
theorem c7_witness :
    loadConfListM caSeven none [Except.ok 7] = Except.error "bad" ∧
    reloadM caSeven (some 3) [Except.ok 7] = (some 3, some "bad") := by
  refine ⟨by decide, ?_⟩
  exact (c7_reload_keeps_committed_on_error caSeven (some 3) [Except.ok 7]).1 "bad" (by decide)

/-- Claim C8: confirmed.  A file cache entry whose combined tag set is
empty makes `updateDBFile` return immediately: no statement is issued,
the entry is unchanged, and no error is reported — whatever its loop,
error, ID or update-bit state. -/
theorem c8_empty_ctags_no_statement (loop pid newId : Nat) (fc : FileCacheS)
    (h : fc.CTags = []) :
    updateDBFileM loop pid newId fc = ([], fc, none) := by
  unfold updateDBFileM
  rw [h]
  simp

/-- Witness for C8 at an entry that would otherwise be inserted. -/
theorem c8_witness :
    fcNoTags.CTags = [] ∧ updateDBFileM 42 9 1000 fcNoTags = ([], fcNoTags, none) :=
  ⟨rfl, c8_empty_ctags_no_statement 42 9 1000 fcNoTags rfl⟩

/-- Claim C9: confirmed.  Bytes after the last newline of a sidecar file
contribute no tag: appending any newline-free suffix to the content
leaves the loaded tag set unchanged, because the reader only processes
newline-terminated lines and discards the final unterminated one at
EOF. -/
theorem c9_unterminated_tail_ignored (tm : List Char → Nat) (c s : List Char)
    (h : ∀ ch ∈ s, ch ≠ '\n') :
    LoadTagFileTags tm (c ++ s) = LoadTagFileTags tm c := by
  unfold LoadTagFileTags completeLines
  rw [splitLinesAux_append c s h []]

/-- Witness for C9: a sidecar reading "sun\n" followed by the
unterminated line "mountain" loads the same tags as "sun\n" alone. -/
theorem c9_witness :
    (∀ ch ∈ "mountain".data, ch ≠ '\n') ∧
    LoadTagFileTags tmLen ("sun\n".data ++ "mountain".data) =
      LoadTagFileTags tmLen "sun\n".data :=
  ⟨by decide, c9_unterminated_tail_ignored tmLen _ _ (by decide)⟩

/-- Claim C10: confirmed.  `wProfile.Get` errors out with no IDs when
the profile index has `maxRoll = 0`, and otherwise returns exactly
`min n 100` IDs: requests above 100 are capped at 100. -/
theorem c10_get_caps (cp : CacheProfile) (num : Nat) (rng : Nat → Nat) :
    (cp.maxRoll = 0 → wProfileGet cp num rng = Except.error "no images for tagprofile") ∧
    (¬cp.maxRoll = 0 →
      wProfileGet cp num rng = Except.ok (getRandomProfile cp (min num 100) rng) ∧
      (getRandomProfile cp (min num 100) rng).length = min num 100 ∧
      min num 100 ≤ 100) := by
  have hcap : (if num > 100 then 100 else num) = min num 100 := by
    split <;> omega
  constructor
  · intro h0
    unfold wProfileGet
    rw [if_pos h0]
  · intro hne
    refine ⟨?_, ?_, ?_⟩
    · unfold wProfileGet
      rw [if_neg hne, hcap]
    · simp [getRandomProfile]
    · omega

/-- Profile with an empty index. -/
def cpZero : CacheProfile := ⟨"p", [], 0⟩

/-- Profile with one weight-1 bucket holding image 7. -/
def cpOne : CacheProfile := ⟨"p", [⟨1, 0, [7]⟩], 1⟩

/-- Constant-zero RNG stream. -/
def rngZero : Nat → Nat := fun _ => 0

/-- Witness for C10: the empty index errors out; a request for 150 IDs
on a non-empty index yields exactly 100. -/
theorem c10_witness :
    wProfileGet cpZero 5 rngZero = Except.error "no images for tagprofile" ∧
    wProfileGet cpOne 150 rngZero = Except.ok (getRandomProfile cpOne 100 rngZero) ∧
    (getRandomProfile cpOne 100 rngZero).length = 100 := by
  have h1 := (c10_get_caps cpZero 5 rngZero).1 (by decide)
  have h2 := (c10_get_caps cpOne 150 rngZero).2 (by decide)
  refine ⟨h1, ?_, ?_⟩
  · simpa using h2.1
  · simpa using h2.2.1
